import Mathlib

/-!
# Verification of the GodotJS runtime bridge (object binding table and module system)

This file shallowly embeds the binding/lifetime table and the module
loading/caching subsystem of the GodotJS bridge
(`jsb_module_resolver.cpp` / `jsb_environment.cpp` / `jsb_environment.h`)
and proves the specification claims about them.

Modelling conventions:
* `HashMap`/`HashSet`/`SArray` containers are embedded as association lists
  (`List (κ × α)`) with `alook`/`aerase`/`aupdate` mirroring
  `find`/`erase`/`get_value`-mutation; `SArray::add` draws a fresh id from a
  `next_id` counter.
* v8 `Global` references are represented by the observable state the code
  manipulates: the weak marker (`SetWeak`/`ClearWeak`) is a `Bool` field.
* Debug assertions (`jsb_check`/`jsb_checkf`, fatal ProgrammerError) are
  modelled as `none` results: nothing is created or mutated.
* Native pointers and script-heap object identities are `Nat`.
* `internal::PathUtil`, `JavaScriptModule`/`JavaScriptModuleCache` member
  functions and the file-access layer are not part of the sources at hand;
  those definitions are modelled from the spec and say so in their doc
  comments.
-/

namespace GodotJS

/-! ## Association-list map kit -/

/-- Lookup in an association list (embeds `HashMap::find` / `SArray::get_value`). -/
def alook {κ α : Type} [DecidableEq κ] : List (κ × α) → κ → Option α
  | [], _ => none
  | (k, v) :: rest, q => if k = q then some v else alook rest q

/-- Erase all entries of a key (embeds `HashMap::erase` / `SArray::remove_at`,
keys being unique in every reachable state). -/
def aerase {κ α : Type} [DecidableEq κ] (m : List (κ × α)) (q : κ) : List (κ × α) :=
  m.filter (fun e => e.1 ≠ q)

/-- In-place update of the value bound to a key (embeds mutation through
`SArray::get_value`). -/
def aupdate {κ α : Type} [DecidableEq κ] (m : List (κ × α)) (q : κ) (f : α → α) :
    List (κ × α) :=
  m.map (fun e => if e.1 = q then (e.1, f e.2) else e)

/-! ## Object binding table (`Environment` binding state)

Embedded from `Environment::bind_pointer`, `Environment::reference_object`,
`Environment::free_object`, `Environment::mark_as_persistent_object`,
`Environment::unbind_pointer` in `jsb_environment.cpp`. -/

/-- `NativeClassType` category of a registered native class. -/
inductive NativeClassType : Type
  | GodotObject
  | GodotPrimitive
  | Custom
  deriving Repr, DecidableEq

/-- `ObjectHandle`: per-bound-pointer record (`jsb_object_handle.h` fields used
by `jsb_environment.cpp`). `weak = true` models a script reference on which
`SetWeak` is installed; `weak = false` models a strong reference
(after `Reset(isolate, obj)` or `ClearWeak`). -/
structure ObjectHandle : Type where
  class_id : Nat
  pointer : Nat
  ref_count : Nat
  weak : Bool
  deriving Repr, DecidableEq

/-- `EBindingPolicy` of `Environment::bind_pointer`. -/
inductive EBindingPolicy : Type
  | Managed
  | External
  deriving Repr, DecidableEq

/-- The `ref_count_` a fresh handle ends up with in `bind_pointer`: the
`Managed` branch leaves the default 0, the `External` branch sets 1. -/
def initial_ref_count : EBindingPolicy → Nat
  | .Managed => 0
  | .External => 1

/-- Whether `bind_pointer` leaves the fresh script reference weak: the
`Managed` branch calls `SetWeak`, the `External` branch keeps it strong. -/
def initial_weak : EBindingPolicy → Bool
  | .Managed => true
  | .External => false

/-- The binding-table state owned by `Environment`:
`objects_` (SArray of handles with fresh-id allocation), `objects_index_`
(pointer → object id), `persistent_objects_` (set of pointers), and the
`native_classes_` table consulted by the assertions. -/
structure BindingState : Type where
  next_id : Nat
  native_classes : List (Nat × NativeClassType)
  objects : List (Nat × ObjectHandle)
  objects_index : List (Nat × Nat)
  persistent_objects : List Nat
  deriving Repr, DecidableEq

/-- `Environment::bind_pointer`. Fatal debug assertions (`jsb_checkf` bad
class id, `jsb_checkf` duplicated bindings, `jsb_check` valuetype class) are
modelled as `none`: no handle is created. On success, returns the fresh
object id and the new state: `Managed` installs `SetWeak` on the fresh
reference and leaves `ref_count_` at 0; `External` keeps the reference
strong and sets `ref_count_ = 1`. -/
def bind_pointer (st : BindingState) (class_id pointer : Nat) (policy : EBindingPolicy) :
    Option (Nat × BindingState) :=
  match alook st.native_classes class_id with
  | none => none
  | some ty =>
    if (alook st.objects_index pointer).isSome then none
    else if ty = NativeClassType.GodotPrimitive then none
    else
      let object_id := st.next_id
      let handle : ObjectHandle :=
        { class_id := class_id
          pointer := pointer
          ref_count := initial_ref_count policy
          weak := initial_weak policy }
      some (object_id,
        { st with
          next_id := st.next_id + 1
          objects := (object_id, handle) :: st.objects
          objects_index := (pointer, object_id) :: st.objects_index })

/-- `Environment::reference_object` — returns (`can die`, new state).
An unknown pointer returns `true` with no change. Incrementing from 0 first
does `ClearWeak` and then raises the count; decrementing at 0 is a no-op
returning `true`; decrementing to 0 does `SetWeak` and returns `true`.
(When the index holds an id that is absent from `objects_`, the C++
`SArray::get_value` asserts; that situation is unreachable from a consistent
state and the model returns the unchanged state.) -/
def reference_object (st : BindingState) (pointer : Nat) (is_inc : Bool) :
    Bool × BindingState :=
  match alook st.objects_index pointer with
  | none => (true, st)
  | some object_id =>
    match alook st.objects object_id with
    | none => (true, st)
    | some h =>
      if is_inc then
        let h' : ObjectHandle :=
          { h with
            weak := if h.ref_count = 0 then false else h.weak
            ref_count := h.ref_count + 1 }
        (false, { st with objects := aupdate st.objects object_id (fun _ => h') })
      else
        if h.ref_count = 0 then (true, st)
        else
          let rc := h.ref_count - 1
          let h' : ObjectHandle :=
            { h with
              ref_count := rc
              weak := if rc = 0 then true else h.weak }
          (decide (rc = 0), { st with objects := aupdate st.objects object_id (fun _ => h') })

/-- The pending finalizer invocation computed by `Environment::free_object`
when `p_free` is true: `class_info.finalizer(this, p_pointer, is_persistent)`. -/
structure FinalizerCall : Type where
  class_id : Nat
  pointer : Nat
  is_persistent : Bool
  deriving Repr, DecidableEq

/-- `Environment::free_object`. The index entry (and the persistent-set entry)
is removed and the handle dropped from `objects_` first; only then, when
`p_free` is true, is the class finalizer invoked — the returned state is the
state the finalizer observes, and the returned `FinalizerCall` describes the
invocation. `none` models the fatal `jsb_check`s (pointer not bound, stale
index entry). -/
def free_object (st : BindingState) (pointer : Nat) (p_free : Bool) :
    Option (BindingState × Option FinalizerCall) :=
  match alook st.objects_index pointer with
  | none => none
  | some object_id =>
    match alook st.objects object_id with
    | none => none
    | some h =>
      if h.pointer ≠ pointer then none
      else
        let is_persistent := decide (pointer ∈ st.persistent_objects)
        let st' : BindingState :=
          { st with
            persistent_objects := st.persistent_objects.filter (fun p => p ≠ pointer)
            objects_index := aerase st.objects_index pointer
            objects := aerase st.objects object_id }
        if p_free then some (st', some ⟨h.class_id, pointer, is_persistent⟩)
        else some (st', none)

/-- The spec-facing `release(pointer, nativeInitiated)` wrapper: per the spec,
`nativeInitiated = false` (script-collector initiated) invokes the class
finalizer and `nativeInitiated = true` only breaks the cross-links, which is
exactly `free_object` with `p_free = !nativeInitiated`. The finalizer `fin`
runs on the state from which the handle has already been removed. -/
def release_object (fin : FinalizerCall → BindingState → BindingState)
    (st : BindingState) (pointer : Nat) (nativeInitiated : Bool) :
    Option BindingState :=
  match free_object st pointer (!nativeInitiated) with
  | none => none
  | some (st', none) => some st'
  | some (st', some fc) => some (fin fc st')

/-- `Environment::mark_as_persistent_object`: for a bound pointer, asserts it
is not already persistent (fatal → `none`), takes a strong reference via
`reference_object(pointer, true)` and records the pointer in
`persistent_objects_`; an unbound pointer only logs an error. -/
def mark_as_persistent_object (st : BindingState) (pointer : Nat) :
    Option BindingState :=
  match alook st.objects_index pointer with
  | some _ =>
    if pointer ∈ st.persistent_objects then none
    else
      let st' := (reference_object st pointer true).2
      some { st' with persistent_objects := pointer :: st'.persistent_objects }
  | none => some st

/-- `Environment::unbind_pointer`: frees the binding without invoking the
finalizer when the pointer is bound, otherwise does nothing. -/
def unbind_pointer (st : BindingState) (pointer : Nat) : Option BindingState :=
  if (alook st.objects_index pointer).isSome then
    (free_object st pointer false).map (fun r => r.1)
  else some st

/-- The binding-table invariant maintained by every operation: handle ids are
unique, allocated below `next_id`, `objects_` and `objects_index_` reference
each other consistently (this yields at most one handle per pointer), and the
`ref_count == 0 ⇔ weak reference` state-machine condition holds for every
live handle. -/
def Inv (st : BindingState) : Prop :=
  (st.objects.map Prod.fst).Nodup ∧
  (∀ e ∈ st.objects, (e : Nat × ObjectHandle).1 < st.next_id) ∧
  (∀ e ∈ st.objects, alook st.objects_index (e : Nat × ObjectHandle).2.pointer = some e.1) ∧
  (∀ e ∈ st.objects_index, ∃ oe ∈ st.objects,
      (oe : Nat × ObjectHandle).1 = (e : Nat × Nat).2 ∧ oe.2.pointer = e.1) ∧
  (∀ e ∈ st.objects, ((e : Nat × ObjectHandle).2.ref_count = 0 ↔ e.2.weak = true))

instance decidableInv (st : BindingState) : Decidable (Inv st) := by
  unfold Inv
  infer_instance

/-- "At most one `ObjectHandle` per native pointer": any two handle entries
holding the same pointer are the same entry. -/
def AtMostOnePerPointer (st : BindingState) : Prop :=
  ∀ e₁ ∈ st.objects, ∀ e₂ ∈ st.objects,
    (e₁ : Nat × ObjectHandle).2.pointer = (e₂ : Nat × ObjectHandle).2.pointer → e₁ = e₂

/-- A sample populated binding state (two bound objects: pointer 7 weakly
held with `ref_count = 0`, pointer 9 strongly held with `ref_count = 1`),
used by the concrete witnesses. -/
def sampleBindingState : BindingState :=
  { next_id := 2
    native_classes := [(0, NativeClassType.GodotObject)]
    objects := [(0, ⟨0, 7, 0, true⟩), (1, ⟨0, 9, 1, false⟩)]
    objects_index := [(7, 0), (9, 1)]
    persistent_objects := [] }

/-! ## Environment teardown (`Environment::~Environment`) -/

/-- One step of `Environment::~Environment`, in source terms. -/
inductive TeardownStep : Type
  /-- `function_bank_.clear(); function_refs_.clear();` -/
  | clearFunctionRefs
  /-- `on_context_destroyed(context); context->SetAlignedPointerInEmbedderData(..., nullptr);` -/
  | detachContextHooks
  /-- `module_cache_.deinit();` -/
  | dropModuleCache
  /-- `context_.Reset();` -/
  | resetContextRef
  /-- loop removing `script_classes_` -/
  | dropScriptClasses
  /-- loop resetting `symbols_` -/
  | dropSymbols
  /-- `debugger_.drop();` -/
  | dropDebugger
  /-- `EnvironmentStore::get_shared().remove(this);` -/
  | unregisterInstanceRegistry
  /-- `timer_manager_.clear_all();` -/
  | clearTimers
  /-- delete `module_resolvers_` -/
  | dropModuleResolvers
  /-- delete `module_loaders_` -/
  | dropModuleLoaders
  /-- `while (!objects_index_.is_empty()) free_object(objects_index_.begin()->key, p_free)`;
  the argument records the `p_free` flag passed to `free_object`. -/
  | flushBoundObjects (p_free : Bool)
  /-- reset `valuetype_private_`, clear `string_name_cache_`, clear `native_classes_` -/
  | dropCaches
  /-- `isolate_->Dispose();` -/
  | disposeIsolate
  /-- `exec_sync_delete();` -/
  | execSyncDelete
  deriving Repr, DecidableEq

/-- The teardown steps of `Environment::~Environment` in the order the
destructor body performs them (`jsb_environment.cpp`). The flush loop passes
`p_free = true` to `free_object`, so the class finalizer IS invoked for each
remaining bound object. -/
def environment_destructor_trace : List TeardownStep :=
  [ TeardownStep.clearFunctionRefs
  , TeardownStep.detachContextHooks
  , TeardownStep.dropModuleCache
  , TeardownStep.resetContextRef
  , TeardownStep.dropScriptClasses
  , TeardownStep.dropSymbols
  , TeardownStep.dropDebugger
  , TeardownStep.unregisterInstanceRegistry
  , TeardownStep.clearTimers
  , TeardownStep.dropModuleResolvers
  , TeardownStep.dropModuleLoaders
  , TeardownStep.flushBoundObjects true
  , TeardownStep.dropCaches
  , TeardownStep.disposeIsolate
  , TeardownStep.execSyncDelete ]

/-- The teardown order asserted by the claim, with the flush step expressed
through the spec's `release(..., nativeInitiated = true)`, i.e.
`free_object` with `p_free = false` (no finalizer). -/
def c10_claimed_teardown_order : List TeardownStep :=
  [ TeardownStep.detachContextHooks
  , TeardownStep.clearFunctionRefs
  , TeardownStep.dropModuleCache
  , TeardownStep.dropSymbols
  , TeardownStep.unregisterInstanceRegistry
  , TeardownStep.flushBoundObjects false
  , TeardownStep.disposeIsolate ]

/-- The teardown order actually performed by the destructor, restricted to
the steps the claim mentions: the function-reference cache is cleared
*before* the cross-context hooks are detached, and the flush passes
`p_free = true` (the finalizer runs, `nativeInitiated = false` in the
spec's terms). -/
def c10_amended_teardown_order : List TeardownStep :=
  [ TeardownStep.clearFunctionRefs
  , TeardownStep.detachContextHooks
  , TeardownStep.dropModuleCache
  , TeardownStep.dropSymbols
  , TeardownStep.unregisterInstanceRegistry
  , TeardownStep.flushBoundObjects true
  , TeardownStep.disposeIsolate ]

/-- The destructor's flush loop:
`while (!objects_index_.is_empty()) free_object(objects_index_.begin()->key, true);`
(fuel-indexed; the fuel is the index size, which suffices because every
iteration removes the freed pointer's entry). `none` models a `jsb_check`
failure inside `free_object`. -/
def flush_loop : Nat → BindingState → Option BindingState
  | 0, st => if st.objects_index.isEmpty then some st else none
  | fuel + 1, st =>
    match st.objects_index with
    | [] => some st
    | (p, _) :: _ =>
      match free_object st p true with
      | some (st', _) => flush_loop fuel st'
      | none => none

/-- The destructor's cleanup of objects whose weak callbacks were never
invoked by v8 (the `flushBoundObjects true` step). -/
def destructor_flush (st : BindingState) : Option BindingState :=
  flush_loop st.objects_index.length st

/-! ## Path utilities

`internal::PathUtil` (`jsb_path_util.h`) is not among the sources at hand;
the following definitions are modelled from the spec. String scanning is
done structurally over the character data. -/

/-- Prefix test on strings (`String::begins_with`). -/
def str_starts_with (s p : String) : Bool :=
  List.isPrefixOf p.data s.data

/-- Suffix test on strings (`String::ends_with`). -/
def str_ends_with (s p : String) : Bool :=
  List.isSuffixOf p.data s.data

/-- Split character data at the path separator. -/
def splitChars : List Char → List (List Char)
  | [] => [[]]
  | c :: rest =>
    let r := splitChars rest
    if c = '/' then [] :: r
    else
      match r with
      | [] => [[c]]
      | seg :: segs => (c :: seg) :: segs

/-- Path segments of a string. -/
def splitPath (s : String) : List String :=
  (splitChars s.data).map String.mk

/-- Rebuild a path from its segments. -/
def joinSegs : List String → String
  | [] => ""
  | [seg] => seg
  | seg :: rest => seg ++ "/" ++ joinSegs rest

/-- Modelled from the spec: `internal::PathUtil::extends_with` — appends the
script extension if it is missing. -/
def extends_with (s ext : String) : String :=
  if str_ends_with s ext then s else s ++ ext

/-- Modelled from the spec: `internal::PathUtil::combine` — joins two path
fragments with a separator. -/
def combine (a b : String) : String :=
  if a = "" then b else a ++ "/" ++ b

/-- Modelled from the spec: `internal::PathUtil::dirname` — the requesting
module's directory, i.e. the path with its last component removed. -/
def dirname (s : String) : String :=
  joinSegs ((splitPath s).dropLast)

/-- Modelled from the spec: segment normalization for
`internal::PathUtil::extract` — drops `.` and empty segments and resolves
`..` against the preceding segment, failing when there is none. -/
def simplifySegs : List String → List String → Option (List String)
  | stack, [] => some stack.reverse
  | stack, seg :: rest =>
    if seg = "." ∨ seg = "" then simplifySegs stack rest
    else if seg = ".." then
      match stack with
      | [] => none
      | _ :: stack' => simplifySegs stack' rest
    else simplifySegs (seg :: stack) rest

/-- Modelled from the spec: `internal::PathUtil::extract` — normalizes a
path, resolving `.` and `..` segments; returns `none` on failure. -/
def extract (s : String) : Option (String) :=
  (simplifySegs [] (splitPath s)).map joinSegs

/-- Whether the first character list occurs contiguously in the second. -/
def infix_of : List Char → List Char → Bool
  | needle, [] => List.isPrefixOf needle []
  | needle, c :: rest => List.isPrefixOf needle (c :: rest) || infix_of needle rest

/-- Modelled from the spec: absolute-path test used by
`DefaultModuleResolver::get_source_info` ("an explicit path", e.g.
`res://...` or a rooted path). -/
def is_absolute_path (s : String) : Bool :=
  str_starts_with s "/" || infix_of "://".data s.data

/-- The relative-identifier normalization performed by
`Environment::_load_module`: an identifier beginning with `./` or `../` is
combined with the requesting module's directory and normalized
(`ThrowError("bad path")`, i.e. `none`, when extraction fails or yields an
empty id); any other identifier is kept as is. -/
def normalize_module_id (parent_id module_id : String) : Option String :=
  if str_starts_with module_id "./" || str_starts_with module_id "../" then
    match extract (combine (dirname parent_id) module_id) with
    | some normalized => if normalized = "" then none else some normalized
    | none => none
  else some module_id

/-! ## Module resolution (`DefaultModuleResolver`) -/

/-- `ModuleSourceInfo` (`jsb_module_resolver.h`): result of a resolve call. -/
structure ModuleSourceInfo : Type where
  source_filepath : String
  package_filepath : String
  deriving Repr, DecidableEq

/-- The file-access facts a resolve call consults, modelled from the spec's
SourceReader collaborator contract: which paths exist
(`FileAccess::exists`), and, for a package descriptor path, the parsed
`"main"` field (`none` models a JSON parse failure). -/
structure FileSys : Type where
  files : List String
  package_main : List (String × Option String)
  deriving Repr, DecidableEq

/-- `DefaultModuleResolver::check_file_path`: first try the identifier as a
direct file with the script extension appended if missing; otherwise look
for `package.json` at that path, read its `"main"` field, and succeed with
the (normalized) entry path when that file exists; `none` when neither
check succeeds (or the descriptor fails to parse / the entry path fails to
extract). -/
def check_file_path (fs : FileSys) (module_id : String) : Option ModuleSourceInfo :=
  let js_ext := ".js"
  let extended := extends_with module_id js_ext
  if fs.files.contains extended then
    some { source_filepath := extended, package_filepath := "" }
  else
    let package_filepath := combine module_id "package.json"
    if fs.files.contains package_filepath then
      match alook fs.package_main package_filepath with
      | some (some main_field) =>
        let main := combine module_id (extends_with main_field js_ext)
        match extract main with
        | some main_path =>
          if fs.files.contains main_path then
            some { source_filepath := main_path, package_filepath := package_filepath }
          else none
        | none => none
      | _ => none
    else none

/-- `DefaultModuleResolver::get_source_info`: an absolute identifier is
checked directly; otherwise each registered search path is combined with the
identifier and checked in order, the first success winning. -/
def get_source_info (fs : FileSys) (search_paths : List String) (module_id : String) :
    Option ModuleSourceInfo :=
  if is_absolute_path module_id then check_file_path fs module_id
  else search_paths.findSome? (fun sp => check_file_path fs (combine sp module_id))

/-! ## Module records and the module cache -/

/-- `JavaScriptModule` record. `exports` and `children` hold the identities
of the script-heap exports value and children array
(`jsb_module.h` is not among the sources at hand; the fields follow the
spec's module-record data model). -/
structure JavaScriptModule : Type where
  id : String
  path : String
  loaded : Bool
  reload_requested : Bool
  exports : Nat
  children : Nat
  deriving Repr, DecidableEq

/-- Modelled from the spec: `JavaScriptModule::is_loaded` — a cached record
satisfies the cache-hit test only when it is loaded and no reload was
requested ("A second resolution of the same identity returns the cached
record without re-execution unless reload was requested"). -/
def JavaScriptModule.is_loaded (m : JavaScriptModule) : Bool :=
  m.loaded && !m.reload_requested

/-- Modelled from the spec: `markReloadRequested` — flags a cached module
without re-executing it. -/
def JavaScriptModule.mark_reload_requested (m : JavaScriptModule) : JavaScriptModule :=
  { m with reload_requested := true }

/-- The module-subsystem state of an `Environment`: the file system seen by
the default resolvers, the registered namespace module loaders
(`module_loaders_` keys), the registered default resolvers' search paths
(`module_resolvers_`), the module cache (`module_cache_.modules_`), a
per-asset-path count of successful module-body executions (instrumenting
`load_from_source`), and a fresh-identity counter for script-heap objects. -/
structure ModuleEnv : Type where
  fs : FileSys
  loaders : List String
  resolvers : List (List String)
  cache : List (String × JavaScriptModule)
  exec_count : List (String × Nat)
  exec_fail : List String
  next_ref : Nat
  deriving Repr, DecidableEq

/-- `Environment::find_module_resolver`: the registered resolvers are tried
in order; the first whose `get_source_info` succeeds wins, yielding the
resolved asset path. -/
def find_module_resolver (env : ModuleEnv) (module_id : String) : Option String :=
  env.resolvers.findSome? (fun sp =>
    (get_source_info env.fs sp module_id).map (fun info => info.source_filepath))

/-- Increment the execution counter of an asset path. -/
def bump_exec (counts : List (String × Nat)) (path : String) : List (String × Nat) :=
  match alook counts path with
  | some n => aupdate counts path (fun _ => n + 1)
  | none => (path, 1) :: counts

/-- `DefaultModuleResolver::load` on an already-resolved asset path: reads
the source, wraps and executes it once (`load_from_source`), and stores the
post-invocation exports value into the module record. Reading or execution
failure (an `exec_fail` path) yields `none` with no execution counted; on
success the stored exports is a fresh script-heap value and the execution
count of the path rises by one. -/
def resolver_load (env : ModuleEnv) (asset_path : String) (m : JavaScriptModule) :
    Option JavaScriptModule × ModuleEnv :=
  if env.exec_fail.contains asset_path then (none, env)
  else
    (some { m with exports := env.next_ref },
     { env with
        next_ref := env.next_ref + 1
        exec_count := bump_exec env.exec_count asset_path })

/-- The slow path of `Environment::_load_module` (everything after the
initial cache test): namespace-loader branch, relative-identifier
normalization, resolver lookup, the re-check against the resolved id, and
the reload/fresh-load branches. `has_existing` tells whether the initial
cache lookup found a (not-loaded) record, which the loader branch asserts
against. Failure (`none` module) leaves the side effects performed so far
in the returned environment, like the C++ returning `nullptr`. -/
def load_module_slow (env : ModuleEnv) (parent_id module_id : String)
    (has_existing : Bool) : Option JavaScriptModule × ModuleEnv :=
  if env.loaders.contains module_id then
    -- jsb_checkf(!existing_module, "module loader does not support reloading")
    if has_existing then (none, env)
    else
      -- module_cache_.insert + loader->load + module.on_load
      let m : JavaScriptModule :=
        { id := module_id, path := "", loaded := true, reload_requested := false
          exports := env.next_ref, children := env.next_ref + 1 }
      (some m, { env with cache := (module_id, m) :: env.cache, next_ref := env.next_ref + 2 })
  else
    match normalize_module_id parent_id module_id with
    | none => (none, env)  -- ThrowError("bad path")
    | some normalized_id =>
      match find_module_resolver env normalized_id with
      | none => (none, env)  -- ThrowError("unknown module")
      | some asset_path =>
        -- check again with the resolved module_id
        match alook env.cache asset_path with
        | some existing =>
          if existing.is_loaded then (some existing, env)
          else
            -- reload branch; jsb_check(existing->id == module_id && existing->path == asset_path)
            if existing.id ≠ asset_path ∨ existing.path ≠ asset_path then (none, env)
            else
              let cleared := { existing with reload_requested := false }
              let env₁ := { env with cache := aupdate env.cache asset_path (fun _ => cleared) }
              match resolver_load env₁ asset_path cleared with
              | (none, env₂) => (none, env₂)
              | (some m', env₂) =>
                (some m', { env₂ with cache := aupdate env₂.cache asset_path (fun _ => m') })
        | none =>
          -- fresh instantiation: insert record, init exports/children, load, on_load
          let m : JavaScriptModule :=
            { id := asset_path, path := asset_path, loaded := false, reload_requested := false
              exports := env.next_ref, children := env.next_ref + 1 }
          let env₁ :=
            { env with cache := (asset_path, m) :: env.cache, next_ref := env.next_ref + 2 }
          match resolver_load env₁ asset_path m with
          | (none, env₂) => (none, env₂)  -- record remains cached and not loaded
          | (some m', env₂) =>
            -- append to the parent's children array (mutates that array's
            -- contents, not any module-record field), then module.on_load
            let m'' := { m' with loaded := true }
            (some m'', { env₂ with cache := aupdate env₂.cache asset_path (fun _ => m'') })

/-- `Environment::_load_module`: a cached record that `is_loaded` is
returned immediately with no side effects; otherwise the slow path runs. -/
def load_module (env : ModuleEnv) (parent_id module_id : String) :
    Option JavaScriptModule × ModuleEnv :=
  match alook env.cache module_id with
  | some m =>
    if m.is_loaded then (some m, env)
    else load_module_slow env parent_id module_id true
  | none => load_module_slow env parent_id module_id false

/-- A sample module environment with one loaded cached module `a.js` (no
reload pending), used by concrete witnesses. -/
def sampleLoadedModuleEnv : ModuleEnv :=
  { fs := { files := ["a.js"], package_main := [] }
    loaders := []
    resolvers := [[""]]
    cache := [("a.js",
      { id := "a.js", path := "a.js", loaded := true, reload_requested := false
        exports := 0, children := 1 })]
    exec_count := [("a.js", 1)]
    exec_fail := []
    next_ref := 2 }

/-- A sample module environment with one loaded-and-reload-requested cached
module `a.js`, used by concrete witnesses. -/
def sampleModuleEnv : ModuleEnv :=
  { fs := { files := ["a.js"], package_main := [] }
    loaders := []
    resolvers := [[""]]
    cache := [("a.js",
      { id := "a.js", path := "a.js", loaded := true, reload_requested := true
        exports := 0, children := 1 })]
    exec_count := [("a.js", 1)]
    exec_fail := []
    next_ref := 2 }

/-! ## Module source execution (`IModuleResolver::load_from_source`) -/

/-- A script-heap value as far as `load_from_source` observes one. -/
inductive JsVal : Type
  | ref (n : Nat)
  | str (s : String)
  deriving Repr, DecidableEq

/-- Script-heap object properties: (object identity, property name) → value. -/
def JsHeap : Type := List ((Nat × String) × JsVal)

/-- `Object::Get`. -/
def hget (heap : JsHeap) (obj : Nat) (key : String) : Option JsVal :=
  alook heap (obj, key)

/-- `Object::Set`. -/
def hset (heap : JsHeap) (obj : Nat) (key : String) (v : JsVal) : JsHeap :=
  ((obj, key), v) :: heap

/-- The elevator header written by `DefaultModuleResolver::read_all_bytes`. -/
def elevator_header : String :=
  "(function(exports,require,module,__filename,__dirname)\x7b"

/-- The elevator footer written by `DefaultModuleResolver::read_all_bytes`. -/
def elevator_footer : String := "\n\x7d)"

/-- `DefaultModuleResolver::read_all_bytes`: the raw module source is wrapped
into the anonymous elevator function text. -/
def read_all_bytes (source : String) : String :=
  elevator_header ++ source ++ elevator_footer

/-- Result of `IModuleResolver::load_from_source`: the value stored back into
`p_module.exports`, and whether the `jsb_notice` overwrite diagnostic fired. -/
structure LoadFromSourceResult : Type where
  module_exports : JsVal
  exports_overwritten : Bool
  deriving Repr, DecidableEq

/-- `IModuleResolver::load_from_source`. `compile_ok` models
`_compile_run` yielding a function value; `call_ok` models the elevator
call completing without a thrown exception; `effect` is the arbitrary
mutation of the script heap performed by the single elevator invocation.
The code sets the `filename`/`path` properties of the module object, calls
the elevator exactly once, reads `module.exports` back (`none` when the
property vanished — the `ToLocalChecked` crash), fires the diagnostic
exactly when the read-back value differs from the pre-allocated exports,
and stores the read-back value. -/
def load_from_source (compile_ok call_ok : Bool) (effect : JsHeap → JsHeap)
    (module_obj exports₀ : Nat) (asset_path : String) (heap : JsHeap) :
    Option LoadFromSourceResult × JsHeap :=
  if !compile_ok then (none, heap)
  else
    let dn := dirname asset_path
    let heap₁ := hset (hset heap module_obj "filename" (JsVal.str asset_path))
        module_obj "path" (JsVal.str dn)
    if !call_ok then (none, heap₁)
    else
      let heap₂ := effect heap₁
      match hget heap₂ module_obj "exports" with
      | none => (none, heap₂)
      | some updated =>
        (some { module_exports := updated
                exports_overwritten := decide (updated ≠ JsVal.ref exports₀) }, heap₂)

end GodotJS

namespace GodotJS

/-! ## Theorems: association-list kit -/

@[simp] theorem alook_nil {κ α : Type} [DecidableEq κ] (q : κ) :
    alook ([] : List (κ × α)) q = none := rfl

@[simp] theorem alook_cons {κ α : Type} [DecidableEq κ] (k : κ) (v : α) (m : List (κ × α)) (q : κ) :
    alook ((k, v) :: m) q = if k = q then some v else alook m q := rfl

theorem alook_mem {κ α : Type} [DecidableEq κ] {m : List (κ × α)} {q : κ} {v : α}
    (h : alook m q = some v) : (q, v) ∈ m := by
  induction m with
  | nil => simp [alook] at h
  | cons e rest ih =>
    obtain ⟨k, w⟩ := e
    rw [alook_cons] at h
    by_cases hk : k = q
    · subst hk
      simp at h
      simp [h]
    · simp [hk] at h
      exact List.mem_cons_of_mem _ (ih h)

theorem alook_isSome_of_mem {κ α : Type} [DecidableEq κ] {m : List (κ × α)} {q : κ} {v : α}
    (h : (q, v) ∈ m) : (alook m q).isSome := by
  induction m with
  | nil => simp at h
  | cons e rest ih =>
    obtain ⟨k, w⟩ := e
    rw [alook_cons]
    by_cases hk : k = q
    · simp [hk]
    · simp [hk]
      rcases List.mem_cons.mp h with h1 | h1
      · exact absurd (congrArg Prod.fst h1).symm hk
      · exact ih h1

theorem alook_of_mem_nodup {κ α : Type} [DecidableEq κ] {m : List (κ × α)} {q : κ} {v : α}
    (hn : (m.map Prod.fst).Nodup) (h : (q, v) ∈ m) : alook m q = some v := by
  induction m with
  | nil => simp at h
  | cons e rest ih =>
    obtain ⟨k, w⟩ := e
    simp only [List.map_cons, List.nodup_cons] at hn
    rw [alook_cons]
    rcases List.mem_cons.mp h with h1 | h1
    · rw [Prod.mk.injEq] at h1
      obtain ⟨hq, hv⟩ := h1
      subst hq; subst hv
      simp
    · by_cases hk : k = q
      · subst hk
        exact absurd (List.mem_map.mpr ⟨(k, v), h1, rfl⟩) hn.1
      · simp only [hk, if_false]
        exact ih hn.2 h1

theorem aerase_cons {κ α : Type} [DecidableEq κ] (k' : κ) (v : α) (rest : List (κ × α)) (k : κ) :
    aerase ((k', v) :: rest) k =
      if k' = k then aerase rest k else (k', v) :: aerase rest k := by
  by_cases hk : k' = k <;> simp [aerase, List.filter_cons, hk]

@[simp] theorem alook_aerase {κ α : Type} [DecidableEq κ] (m : List (κ × α)) (k q : κ) :
    alook (aerase m k) q = if q = k then none else alook m q := by
  induction m with
  | nil => simp [aerase]
  | cons e rest ih =>
    obtain ⟨k', v⟩ := e
    rw [aerase_cons]
    by_cases hk : k' = k
    · subst hk
      rw [if_pos rfl, ih, alook_cons]
      by_cases hq : q = k'
      · simp [hq]
      · have hq' : ¬ k' = q := fun h => hq h.symm
        simp [hq, hq']
    · rw [if_neg hk, alook_cons, alook_cons, ih]
      by_cases hq : k' = q
      · subst hq
        simp [hk]
      · simp [hq]

theorem alook_aupdate {κ α : Type} [DecidableEq κ] (m : List (κ × α)) (k : κ) (f : α → α) (q : κ) :
    alook (aupdate m k f) q =
      if q = k then (alook m q).map f else alook m q := by
  induction m with
  | nil => simp [aupdate]
  | cons e rest ih =>
    obtain ⟨k', v⟩ := e
    simp only [aupdate, List.map_cons] at ih ⊢
    by_cases hk : k' = k
    · subst hk
      by_cases hq : k' = q
      · subst hq
        simp
      · have hq' : ¬ q = k' := fun h => hq h.symm
        simp [hq, hq', ih]
    · by_cases hq : k' = q
      · subst hq
        simp [hk]
      · have hq' : ¬ q = k' := fun h => hq h.symm
        simp [hk, hq, ih]

theorem mem_aupdate {κ α : Type} [DecidableEq κ] {m : List (κ × α)} {k : κ} {f : α → α}
    {e : κ × α} (h : e ∈ aupdate m k f) :
    (∃ e₀ ∈ m, e₀.1 = e.1 ∧ e₀.1 ≠ k ∧ e₀ = e) ∨
    (∃ v₀, (e.1, v₀) ∈ m ∧ e.1 = k ∧ e.2 = f v₀) := by
  rcases List.mem_map.mp h with ⟨e₀, he₀, heq⟩
  by_cases hk : e₀.1 = k
  · right
    rw [if_pos hk] at heq
    refine ⟨e₀.2, ?_, ?_, ?_⟩
    · rw [← heq]; simpa using he₀
    · rw [← heq]; exact hk
    · rw [← heq]
  · left
    rw [if_neg hk] at heq
    exact ⟨e₀, he₀, by rw [heq], by rw [heq] at hk ⊢; exact hk, heq⟩

theorem mem_aupdate_of_mem_ne {κ α : Type} [DecidableEq κ] {m : List (κ × α)} {k : κ}
    {f : α → α} {e : κ × α} (h : e ∈ m) (hne : e.1 ≠ k) : e ∈ aupdate m k f :=
  List.mem_map.mpr ⟨e, h, by rw [if_neg hne]⟩

theorem mem_aupdate_self {κ α : Type} [DecidableEq κ] {m : List (κ × α)} {k : κ}
    {f : α → α} {v : α} (h : (k, v) ∈ m) : (k, f v) ∈ aupdate m k f :=
  List.mem_map.mpr ⟨(k, v), h, by simp⟩

theorem mem_aerase {κ α : Type} [DecidableEq κ] {m : List (κ × α)} {k : κ} {e : κ × α}
    (h : e ∈ aerase m k) : e ∈ m ∧ e.1 ≠ k := by
  have := List.mem_filter.mp h
  simpa using this

theorem mem_aerase_of_mem_ne {κ α : Type} [DecidableEq κ] {m : List (κ × α)} {k : κ}
    {e : κ × α} (h : e ∈ m) (hne : e.1 ≠ k) : e ∈ aerase m k :=
  List.mem_filter.mpr ⟨h, by simpa using hne⟩

theorem map_fst_aupdate {κ α : Type} [DecidableEq κ] (m : List (κ × α)) (k : κ) (f : α → α) :
    (aupdate m k f).map Prod.fst = m.map Prod.fst := by
  induction m with
  | nil => rfl
  | cons e rest ih =>
    by_cases hk : e.1 = k <;> simp [aupdate, hk] at ih ⊢ <;> exact ih

theorem nodup_fst_aerase {κ α : Type} [DecidableEq κ] {m : List (κ × α)}
    (hn : (m.map Prod.fst).Nodup) (k : κ) : ((aerase m k).map Prod.fst).Nodup := by
  induction m with
  | nil => simp [aerase]
  | cons e rest ih =>
    obtain ⟨k', v⟩ := e
    simp only [List.map_cons, List.nodup_cons] at hn
    rw [aerase_cons]
    by_cases hk : k' = k
    · rw [if_pos hk]
      exact ih hn.2
    · rw [if_neg hk]
      simp only [List.map_cons, List.nodup_cons]
      refine ⟨?_, ih hn.2⟩
      intro hmem
      rcases List.mem_map.mp hmem with ⟨e', he', heq⟩
      exact hn.1 (List.mem_map.mpr ⟨e', (mem_aerase he').1, heq⟩)

theorem eq_of_mem_nodup_fst {κ α : Type} [DecidableEq κ] {m : List (κ × α)}
    (hn : (m.map Prod.fst).Nodup) {e₁ e₂ : κ × α} (h₁ : e₁ ∈ m) (h₂ : e₂ ∈ m)
    (hk : e₁.1 = e₂.1) : e₁ = e₂ := by
  have l₁ : alook m e₁.1 = some e₁.2 := alook_of_mem_nodup hn (by simpa using h₁)
  have l₂ : alook m e₂.1 = some e₂.2 := alook_of_mem_nodup hn (by simpa using h₂)
  rw [hk, l₂] at l₁
  exact Prod.ext hk (Option.some.inj l₁).symm

/-! ## Theorems: binding-table invariant machinery -/

theorem index_consistent {st : BindingState} (hInv : Inv st) {p oid : Nat}
    (h : alook st.objects_index p = some oid) :
    ∃ hdl : ObjectHandle, alook st.objects oid = some hdl ∧ hdl.pointer = p := by
  obtain ⟨hn, _, _, h4, _⟩ := hInv
  obtain ⟨oe, hoe, hfst, hptr⟩ := h4 (p, oid) (alook_mem h)
  refine ⟨oe.2, ?_, hptr⟩
  have hl : alook st.objects oe.1 = some oe.2 := alook_of_mem_nodup hn (by simpa using hoe)
  rw [hfst] at hl
  exact hl

theorem inv_aupdate_handle {st : BindingState} (hInv : Inv st) {oid : Nat}
    {hdl h' : ObjectHandle} (hO : alook st.objects oid = some hdl)
    (hptr : h'.pointer = hdl.pointer)
    (hrw : h'.ref_count = 0 ↔ h'.weak = true) :
    Inv { st with objects := aupdate st.objects oid (fun _ => h') } := by
  obtain ⟨hn, h2, h3, h4, h5⟩ := hInv
  have hmemO : (oid, hdl) ∈ st.objects := alook_mem hO
  simp only [Inv]
  refine ⟨?_, ?_, ?_, ?_, ?_⟩
  · simpa [map_fst_aupdate] using hn
  · intro e he
    rcases mem_aupdate he with ⟨e₀, he₀, hfst, _, _⟩ | ⟨v₀, hv₀, hfst, _⟩
    · exact hfst ▸ h2 e₀ he₀
    · exact hfst ▸ h2 (oid, hdl) hmemO
  · intro e he
    rcases mem_aupdate he with ⟨e₀, he₀, _, _, heq⟩ | ⟨v₀, hv₀, hfst, hsnd⟩
    · exact heq ▸ h3 e₀ he₀
    · have hv : v₀ = hdl := by
        have hl := alook_of_mem_nodup hn (hfst ▸ hv₀ : (oid, v₀) ∈ st.objects)
        rw [hO] at hl
        exact (Option.some.inj hl).symm
      have hptr' : e.2.pointer = hdl.pointer := by rw [hsnd, hptr]
      rw [hptr', hfst]
      exact h3 (oid, hdl) hmemO
  · intro e he
    obtain ⟨oe, hoe, hfst, hp⟩ := h4 e he
    by_cases hko : oe.1 = oid
    · have hv : oe.2 = hdl := by
        have hl := alook_of_mem_nodup hn (show (oid, oe.2) ∈ st.objects by
          have hoe' : oe = (oid, oe.2) := Prod.ext hko rfl
          exact hoe' ▸ hoe)
        rw [hO] at hl
        exact (Option.some.inj hl).symm
      refine ⟨(oid, h'), mem_aupdate_self (show (oid, hdl) ∈ st.objects from hmemO), ?_, ?_⟩
      · rw [← hko, hfst]
      · show h'.pointer = e.1
        rw [hptr, ← hv, hp]
    · exact ⟨oe, mem_aupdate_of_mem_ne hoe hko, hfst, hp⟩
  · intro e he
    rcases mem_aupdate he with ⟨e₀, he₀, _, _, heq⟩ | ⟨v₀, _, _, hsnd⟩
    · exact heq ▸ h5 e₀ he₀
    · rw [hsnd]
      exact hrw

theorem reference_object_preserves {st : BindingState} (hInv : Inv st) (P : Nat) (b : Bool) :
    Inv (reference_object st P b).2 := by
  cases hP : alook st.objects_index P with
  | none => simpa [reference_object, hP] using hInv
  | some oid =>
    cases hO : alook st.objects oid with
    | none => simpa [reference_object, hP, hO] using hInv
    | some hdl =>
      have h5 := hInv.2.2.2.2
      have hrc_weak : hdl.ref_count = 0 ↔ hdl.weak = true := h5 (oid, hdl) (alook_mem hO)
      cases b with
      | true =>
        have hgoal : (reference_object st P true).2 =
            { st with objects := aupdate st.objects oid (fun _ =>
                { hdl with
                  weak := if hdl.ref_count = 0 then false else hdl.weak
                  ref_count := hdl.ref_count + 1 }) } := by
          simp [reference_object, hP, hO]
        rw [hgoal]
        refine inv_aupdate_handle hInv hO rfl ?_
        constructor
        · intro hc
          exact absurd (show hdl.ref_count + 1 = 0 from hc) (Nat.succ_ne_zero _)
        · intro hw
          have hw' : (if hdl.ref_count = 0 then false else hdl.weak) = true := hw
          by_cases h0 : hdl.ref_count = 0
          · rw [if_pos h0] at hw'
            exact absurd hw' (by simp)
          · rw [if_neg h0] at hw'
            exact absurd (hrc_weak.mpr hw') h0
      | false =>
        by_cases h0 : hdl.ref_count = 0
        · simpa [reference_object, hP, hO, h0] using hInv
        · have hgoal : (reference_object st P false).2 =
              { st with objects := aupdate st.objects oid (fun _ =>
                  { hdl with
                    ref_count := hdl.ref_count - 1
                    weak := if hdl.ref_count - 1 = 0 then true else hdl.weak }) } := by
            simp [reference_object, hP, hO, h0]
          rw [hgoal]
          refine inv_aupdate_handle hInv hO rfl ?_
          constructor
          · intro hc
            have hc' : hdl.ref_count - 1 = 0 := hc
            show (if hdl.ref_count - 1 = 0 then true else hdl.weak) = true
            rw [if_pos hc']
          · intro hw
            have hw' : (if hdl.ref_count - 1 = 0 then true else hdl.weak) = true := hw
            by_cases hc : hdl.ref_count - 1 = 0
            · exact hc
            · rw [if_neg hc] at hw'
              exact absurd (hrc_weak.mpr hw') h0

theorem free_object_preserves {st : BindingState} (hInv : Inv st) {P : Nat} {pf : Bool}
    {st' : BindingState} {ofc : Option FinalizerCall}
    (h : free_object st P pf = some (st', ofc)) : Inv st' := by
  obtain ⟨hn, h2, h3, h4, h5⟩ := hInv
  cases hP : alook st.objects_index P with
  | none => simp [free_object, hP] at h
  | some oid =>
    cases hO : alook st.objects oid with
    | none => simp [free_object, hP, hO] at h
    | some hdl =>
      by_cases hptr : hdl.pointer ≠ P
      · simp [free_object, hP, hO, hptr] at h
      · rw [not_not] at hptr
        have hst' : st' =
            { st with
              persistent_objects := st.persistent_objects.filter (fun p => !decide (p = P))
              objects_index := aerase st.objects_index P
              objects := aerase st.objects oid } := by
          cases pf <;> simp [free_object, hP, hO, hptr, not_not] at h <;>
            exact h.1.symm
        subst hst'
        simp only [Inv]
        refine ⟨nodup_fst_aerase hn oid, ?_, ?_, ?_, ?_⟩
        · intro e he
          exact h2 e (mem_aerase he).1
        · intro e he
          obtain ⟨hmem, hne⟩ := mem_aerase he
          have hne_ptr : e.2.pointer ≠ P := by
            intro hc
            have := h3 e hmem
            rw [hc, hP] at this
            exact hne (Option.some.inj this).symm
          rw [alook_aerase, if_neg hne_ptr]
          exact h3 e hmem
        · intro e he
          obtain ⟨hmem, hne⟩ := mem_aerase he
          obtain ⟨oe, hoe, hfst, hp⟩ := h4 e hmem
          have hko : oe.1 ≠ oid := by
            intro hc
            have hv : oe.2 = hdl := by
              have := alook_of_mem_nodup hn (show (oid, oe.2) ∈ st.objects by
                have heq : oe = (oid, oe.2) := Prod.ext hc rfl
                exact heq ▸ hoe)
              rw [hO] at this
              exact (Option.some.inj this).symm
            apply hne
            rw [← hp, hv, hptr]
          exact ⟨oe, mem_aerase_of_mem_ne hoe hko, hfst, hp⟩
        · intro e he
          exact h5 e (mem_aerase he).1

theorem mark_as_persistent_preserves {st : BindingState} (hInv : Inv st) {P : Nat}
    {st' : BindingState} (h : mark_as_persistent_object st P = some st') : Inv st' := by
  cases hP : alook st.objects_index P with
  | none =>
    simp only [mark_as_persistent_object, hP] at h
    exact (Option.some.inj h) ▸ hInv
  | some oid =>
    by_cases hpers : P ∈ st.persistent_objects
    · simp [mark_as_persistent_object, hP, hpers] at h
    · simp only [mark_as_persistent_object, hP] at h
      rw [if_neg hpers] at h
      have hy := Option.some.inj h
      rw [← hy]
      have href := reference_object_preserves hInv P true
      simpa [Inv] using href

theorem bind_pointer_success {st : BindingState} {cid P : Nat} {pol : EBindingPolicy}
    {oid : Nat} {st' : BindingState}
    (h : bind_pointer st cid P pol = some (oid, st')) :
    oid = st.next_id ∧ alook st.objects_index P = none ∧
    st' = { st with
      next_id := st.next_id + 1
      objects := (st.next_id,
        { class_id := cid, pointer := P
          ref_count := initial_ref_count pol
          weak := initial_weak pol }) :: st.objects
      objects_index := (P, st.next_id) :: st.objects_index } := by
  cases hcl : alook st.native_classes cid with
  | none => simp [bind_pointer, hcl] at h
  | some ty =>
    cases hP : alook st.objects_index P with
    | some x => simp [bind_pointer, hcl, hP] at h
    | none =>
      by_cases hty : ty = NativeClassType.GodotPrimitive
      · simp [bind_pointer, hcl, hP, hty] at h
      · simp [bind_pointer, hcl, hP, hty] at h
        exact ⟨h.1.symm, rfl, h.2.symm⟩

theorem bind_pointer_preserves {st : BindingState} (hInv : Inv st)
    {cid P : Nat} {pol : EBindingPolicy} {oid : Nat} {st' : BindingState}
    (h : bind_pointer st cid P pol = some (oid, st')) :
    Inv st' ∧
    alook st'.objects oid = some
      { class_id := cid, pointer := P
        ref_count := initial_ref_count pol
        weak := initial_weak pol } := by
  obtain ⟨hoid, hP, hst'⟩ := bind_pointer_success h
  obtain ⟨hn, h2, h3, h4, h5⟩ := hInv
  subst hst'
  subst hoid
  constructor
  · simp only [Inv]
    refine ⟨?_, ?_, ?_, ?_, ?_⟩
    · simp only [List.map_cons, List.nodup_cons]
      refine ⟨?_, hn⟩
      intro hmem
      rcases List.mem_map.mp hmem with ⟨e, he, heq⟩
      have := h2 e he
      omega
    · intro e he
      rcases List.mem_cons.mp he with heq | hmem
      · subst heq
        simp
      · have := h2 e hmem
        omega
    · intro e he
      rcases List.mem_cons.mp he with heq | hmem
      · subst heq
        simp
      · rw [alook_cons]
        have hne : ¬ P = e.2.pointer := by
          intro hc
          have h3e := h3 e hmem
          rw [← hc, hP] at h3e
          exact Option.noConfusion h3e
        rw [if_neg hne]
        exact h3 e hmem
    · intro e he
      rcases List.mem_cons.mp he with heq | hmem
      · subst heq
        exact ⟨(st.next_id, _), List.mem_cons_self _ _, rfl, rfl⟩
      · obtain ⟨oe, hoe, hfst, hp⟩ := h4 e hmem
        exact ⟨oe, List.mem_cons_of_mem _ hoe, hfst, hp⟩
    · intro e he
      rcases List.mem_cons.mp he with heq | hmem
      · subst heq
        cases pol <;> simp [initial_ref_count, initial_weak]
      · exact h5 e hmem
  · simp

/-! ## Claim theorems: binding table -/

/-- **C1**: for every bound pointer P, `reference_object(P, true)` from
`ref_count = 0` clears the weak marker and sets `ref_count` to 1 (returning
false); `reference_object(P, false)` from `ref_count = 1` sets `ref_count`
to 0, re-installs the weak marker (`SetWeak`), and returns true;
`reference_object(P, false)` at `ref_count = 0` leaves the state unchanged
and returns true; and a pointer absent from the binding table returns true
(treated as already-dead) with no change. -/
theorem c1_reference_object_transitions (st : BindingState) (P : Nat) :
    (alook st.objects_index P = none →
      reference_object st P true = (true, st) ∧
      reference_object st P false = (true, st)) ∧
    (∀ oid hdl, alook st.objects_index P = some oid → alook st.objects oid = some hdl →
      (hdl.ref_count = 0 →
        (reference_object st P true).1 = false ∧
        alook (reference_object st P true).2.objects oid =
          some { hdl with weak := false, ref_count := 1 } ∧
        reference_object st P false = (true, st)) ∧
      (hdl.ref_count = 1 →
        (reference_object st P false).1 = true ∧
        alook (reference_object st P false).2.objects oid =
          some { hdl with ref_count := 0, weak := true })) := by
  constructor
  · intro hP
    exact ⟨by simp [reference_object, hP], by simp [reference_object, hP]⟩
  · intro oid hdl hP hO
    constructor
    · intro h0
      have hstate : (reference_object st P true).2 =
          { st with objects := aupdate st.objects oid (fun _ =>
              { hdl with
                weak := if hdl.ref_count = 0 then false else hdl.weak
                ref_count := hdl.ref_count + 1 }) } := by
        simp [reference_object, hP, hO]
      refine ⟨by simp [reference_object, hP, hO], ?_, by simp [reference_object, hP, hO, h0]⟩
      rw [hstate]
      have halook : alook (aupdate st.objects oid (fun _ =>
          ({ hdl with
              weak := if hdl.ref_count = 0 then false else hdl.weak
              ref_count := hdl.ref_count + 1 } : ObjectHandle))) oid =
          some { hdl with weak := false, ref_count := 1 } := by
        rw [alook_aupdate, if_pos rfl, hO]
        simp [h0]
      exact halook
    · intro h1
      have h0 : ¬ hdl.ref_count = 0 := by omega
      have hstate : (reference_object st P false).2 =
          { st with objects := aupdate st.objects oid (fun _ =>
              { hdl with
                ref_count := hdl.ref_count - 1
                weak := if hdl.ref_count - 1 = 0 then true else hdl.weak }) } := by
        simp [reference_object, hP, hO, h0]
      have hfst : (reference_object st P false).1 = decide (hdl.ref_count - 1 = 0) := by
        simp [reference_object, hP, hO, h0]
      refine ⟨by rw [hfst]; simp [h1], ?_⟩
      rw [hstate]
      have halook : alook (aupdate st.objects oid (fun _ =>
          ({ hdl with
              ref_count := hdl.ref_count - 1
              weak := if hdl.ref_count - 1 = 0 then true else hdl.weak } : ObjectHandle))) oid =
          some { hdl with ref_count := 0, weak := true } := by
        rw [alook_aupdate, if_pos rfl, hO]
        simp [h1]
      exact halook

/-- Concrete C1 witness on `sampleBindingState`: unbound pointer 5, the
weak/`ref_count = 0` handle of pointer 7, and the strong/`ref_count = 1`
handle of pointer 9. -/
theorem c1_reference_object_transitions_witness :
    reference_object sampleBindingState 5 true = (true, sampleBindingState) ∧
    (reference_object sampleBindingState 7 true).1 = false ∧
    alook (reference_object sampleBindingState 7 true).2.objects 0 =
      some { class_id := 0, pointer := 7, ref_count := 1, weak := false } ∧
    reference_object sampleBindingState 7 false = (true, sampleBindingState) ∧
    (reference_object sampleBindingState 9 false).1 = true ∧
    alook (reference_object sampleBindingState 9 false).2.objects 1 =
      some { class_id := 0, pointer := 9, ref_count := 0, weak := true } := by
  have h5 := c1_reference_object_transitions sampleBindingState 5
  have h7 := (c1_reference_object_transitions sampleBindingState 7).2 0
    ⟨0, 7, 0, true⟩ (by decide) (by decide)
  have h9 := (c1_reference_object_transitions sampleBindingState 9).2 1
    ⟨0, 9, 1, false⟩ (by decide) (by decide)
  refine ⟨(h5.1 (by decide)).1, ?_, ?_, ?_, ?_, ?_⟩
  · exact (h7.1 (by decide)).1
  · exact (h7.1 (by decide)).2.1
  · exact (h7.1 (by decide)).2.2
  · exact (h9.2 (by decide)).1
  · exact (h9.2 (by decide)).2

/-- **C4**: binding a pointer that is already present in the binding table
fires the duplicated-bindings ProgrammerError assertion: `bind_pointer`
yields `none` for every class id and policy, and no second handle is
created. -/
theorem c4_bind_pointer_duplicate_is_fatal (st : BindingState) (P oid : Nat)
    (hbound : alook st.objects_index P = some oid) :
    ∀ class_id policy, bind_pointer st class_id P policy = none := by
  intro cid pol
  cases hcl : alook st.native_classes cid with
  | none => simp [bind_pointer, hcl]
  | some ty => simp [bind_pointer, hcl, hbound]

/-- Concrete C4 witness: pointer 7 is bound in `sampleBindingState`, so a
second bind fails. -/
theorem c4_bind_pointer_duplicate_is_fatal_witness :
    bind_pointer sampleBindingState 0 7 EBindingPolicy.External = none :=
  c4_bind_pointer_duplicate_is_fatal sampleBindingState 7 0 (by decide) 0
    EBindingPolicy.External

/-- **C2**: `release(P, nativeInitiated = false)`, i.e. `free_object(P, true)`,
removes P's index entry and its persistent-set entry before the class
finalizer is invoked: in the state the finalizer observes, a lookup of P
reports not-bound, a re-bind of P succeeds (for any valid non-primitive
class), and `release_object` runs the finalizer precisely on that
already-cleaned state. -/
theorem c2_release_removes_index_before_finalizer
    (st : BindingState) (P : Nat) (st' : BindingState) (fc : FinalizerCall)
    (h : free_object st P true = some (st', some fc)) :
    alook st'.objects_index P = none ∧
    P ∉ st'.persistent_objects ∧
    fc.pointer = P ∧
    st'.native_classes = st.native_classes ∧
    (∀ class_id ty policy, alook st'.native_classes class_id = some ty →
      ty ≠ NativeClassType.GodotPrimitive →
      (bind_pointer st' class_id P policy).isSome) ∧
    (∀ fin : FinalizerCall → BindingState → BindingState,
      release_object fin st P false = some (fin fc st')) := by
  cases hP : alook st.objects_index P with
  | none => simp [free_object, hP] at h
  | some oid =>
    cases hO : alook st.objects oid with
    | none => simp [free_object, hP, hO] at h
    | some hdl =>
      by_cases hptr : hdl.pointer ≠ P
      · simp [free_object, hP, hO, hptr] at h
      · rw [not_not] at hptr
        have hmain := h
        simp [free_object, hP, hO, hptr, not_not] at hmain
        obtain ⟨hst', hfc⟩ := hmain
        have hst'' : st' =
            { st with
              persistent_objects := st.persistent_objects.filter (fun p => !decide (p = P))
              objects_index := aerase st.objects_index P
              objects := aerase st.objects oid } := hst'.symm
        subst hst''
        refine ⟨?_, ?_, ?_, rfl, ?_, ?_⟩
        · show alook (aerase st.objects_index P) P = none
          rw [alook_aerase, if_pos rfl]
        · show P ∉ st.persistent_objects.filter (fun p => !decide (p = P))
          intro hc
          have := List.mem_filter.mp hc
          simp at this
        · rw [← hfc]
        · intro cid ty pol hcl hty
          have hidx : alook (aerase st.objects_index P) P = none := by
            rw [alook_aerase, if_pos rfl]
          simp [bind_pointer, hcl, hidx, hty]
        · intro fin
          simp only [release_object, Bool.not_false, h]

/-- Concrete C2 witness: releasing pointer 7 of `sampleBindingState` with the
finalizer enabled; the finalizer-visible state has 7 unbound, re-bindable,
and `release_object` feeds it to the finalizer. -/
theorem c2_release_removes_index_before_finalizer_witness :
    alook (⟨2, [(0, NativeClassType.GodotObject)], [(1, ⟨0, 9, 1, false⟩)],
        [(9, 1)], []⟩ : BindingState).objects_index 7 = none ∧
    (bind_pointer ⟨2, [(0, NativeClassType.GodotObject)], [(1, ⟨0, 9, 1, false⟩)],
        [(9, 1)], []⟩ 0 7 EBindingPolicy.Managed).isSome ∧
    release_object (fun _ s => s) sampleBindingState 7 false =
      some ⟨2, [(0, NativeClassType.GodotObject)], [(1, ⟨0, 9, 1, false⟩)],
        [(9, 1)], []⟩ := by
  have h := c2_release_removes_index_before_finalizer sampleBindingState 7
    ⟨2, [(0, NativeClassType.GodotObject)], [(1, ⟨0, 9, 1, false⟩)], [(9, 1)], []⟩
    ⟨0, 7, false⟩ (by decide)
  exact ⟨h.1,
    h.2.2.2.2.1 0 NativeClassType.GodotObject EBindingPolicy.Managed (by decide) (by decide),
    h.2.2.2.2.2 (fun _ s => s)⟩

/-- **C3**: every binding-table operation (`bind_pointer`,
`reference_object` increment/decrement, `free_object` (release),
`mark_as_persistent_object`) preserves the invariant `Inv`: at most one
`ObjectHandle` per native pointer and, for every live handle,
`ref_count = 0` exactly when the script reference is weak; an `External`
bind starts its handle at `ref_count = 1` with a strong reference and a
`Managed` bind at `ref_count = 0` with a weak reference. -/
theorem c3_binding_invariant_preservation (st : BindingState) (hInv : Inv st) :
    (AtMostOnePerPointer st ∧
      ∀ e ∈ st.objects, ((e : Nat × ObjectHandle).2.ref_count = 0 ↔ e.2.weak = true)) ∧
    (∀ class_id P policy oid st', bind_pointer st class_id P policy = some (oid, st') →
      Inv st' ∧ alook st'.objects oid = some
        { class_id := class_id, pointer := P
          ref_count := initial_ref_count policy
          weak := initial_weak policy }) ∧
    (∀ P is_inc, Inv (reference_object st P is_inc).2) ∧
    (∀ P p_free st' ofc, free_object st P p_free = some (st', ofc) → Inv st') ∧
    (∀ P st', mark_as_persistent_object st P = some st' → Inv st') := by
  refine ⟨⟨?_, hInv.2.2.2.2⟩, ?_, ?_, ?_, ?_⟩
  · intro e₁ h₁ e₂ h₂ hp
    have l₁ := hInv.2.2.1 e₁ h₁
    have l₂ := hInv.2.2.1 e₂ h₂
    rw [hp, l₂] at l₁
    exact eq_of_mem_nodup_fst hInv.1 h₁ h₂ (Option.some.inj l₁).symm
  · intro cid P pol oid st' h
    exact bind_pointer_preserves hInv h
  · intro P b
    exact reference_object_preserves hInv P b
  · intro P pf st' ofc h
    exact free_object_preserves hInv h
  · intro P st' h
    exact mark_as_persistent_preserves hInv h

/-- Concrete C3 witness: `sampleBindingState` satisfies the invariant and
keeps satisfying it after a reference increment, a release, a persistent
marking, and a fresh `Managed` bind. -/
theorem c3_binding_invariant_preservation_witness :
    Inv sampleBindingState ∧
    Inv (reference_object sampleBindingState 7 true).2 ∧
    Inv ⟨2, [(0, NativeClassType.GodotObject)], [(1, ⟨0, 9, 1, false⟩)], [(9, 1)], []⟩ ∧
    Inv ⟨2, [(0, NativeClassType.GodotObject)],
      [(0, ⟨0, 7, 1, false⟩), (1, ⟨0, 9, 1, false⟩)], [(7, 0), (9, 1)], [7]⟩ ∧
    Inv ⟨3, [(0, NativeClassType.GodotObject)],
      [(2, ⟨0, 5, 0, true⟩), (0, ⟨0, 7, 0, true⟩), (1, ⟨0, 9, 1, false⟩)],
      [(5, 2), (7, 0), (9, 1)], []⟩ := by
  have hInv : Inv sampleBindingState := by decide
  have h := c3_binding_invariant_preservation sampleBindingState hInv
  refine ⟨hInv, h.2.2.1 7 true, ?_, ?_, ?_⟩
  · exact h.2.2.2.1 7 true
      ⟨2, [(0, NativeClassType.GodotObject)], [(1, ⟨0, 9, 1, false⟩)], [(9, 1)], []⟩
      (some ⟨0, 7, false⟩) (by decide)
  · exact h.2.2.2.2 7
      ⟨2, [(0, NativeClassType.GodotObject)],
        [(0, ⟨0, 7, 1, false⟩), (1, ⟨0, 9, 1, false⟩)], [(7, 0), (9, 1)], [7]⟩
      (by decide)
  · exact (h.2.1 0 5 EBindingPolicy.Managed 2
      ⟨3, [(0, NativeClassType.GodotObject)],
        [(2, ⟨0, 5, 0, true⟩), (0, ⟨0, 7, 0, true⟩), (1, ⟨0, 9, 1, false⟩)],
        [(5, 2), (7, 0), (9, 1)], []⟩ (by decide)).1

/-! ## Theorems: environment teardown -/

theorem objects_nil_of_index_nil {st : BindingState} (hInv : Inv st)
    (h : st.objects_index = []) : st.objects = [] := by
  cases hobj : st.objects with
  | nil => rfl
  | cons e rest =>
    have h3 := hInv.2.2.1 e (by rw [hobj]; exact List.mem_cons_self e rest)
    rw [h] at h3
    simp [alook] at h3

theorem flush_loop_empties : ∀ (fuel : Nat) (st : BindingState), Inv st →
    st.objects_index.length ≤ fuel →
    ∃ st', flush_loop fuel st = some st' ∧ st'.objects_index = [] ∧
      st'.objects = [] ∧ st'.native_classes = st.native_classes := by
  intro fuel
  induction fuel with
  | zero =>
    intro st hInv hlen
    have hnil : st.objects_index = [] := List.eq_nil_of_length_eq_zero (Nat.le_zero.mp hlen)
    exact ⟨st, by simp [flush_loop, hnil], hnil, objects_nil_of_index_nil hInv hnil, rfl⟩
  | succ n ih =>
    intro st hInv hlen
    cases hidx : st.objects_index with
    | nil =>
      exact ⟨st, by simp [flush_loop, hidx], hidx, objects_nil_of_index_nil hInv hidx, rfl⟩
    | cons pe rest =>
      obtain ⟨p, oid⟩ := pe
      have hPl : alook st.objects_index p = some oid := by
        rw [hidx]
        simp
      obtain ⟨hdl, hO, hptr⟩ := index_consistent hInv hPl
      cases hfree : free_object st p true with
      | none =>
        exfalso
        simp [free_object, hPl, hO, hptr] at hfree
      | some res =>
        obtain ⟨st₁, ofc⟩ := res
        have hInv₁ : Inv st₁ := free_object_preserves hInv hfree
        have hfacts : st₁.objects_index = aerase st.objects_index p ∧
            st₁.native_classes = st.native_classes := by
          have hfree' := hfree
          simp [free_object, hPl, hO, hptr] at hfree'
          obtain ⟨h1, _⟩ := hfree'
          rw [← h1]
          exact ⟨rfl, rfl⟩
        have hlen₁ : st₁.objects_index.length ≤ n := by
          rw [hfacts.1, hidx, aerase_cons, if_pos rfl]
          have h1 : (aerase rest p).length ≤ rest.length := List.length_filter_le _ _
          have h2 : rest.length ≤ n := by
            rw [hidx] at hlen
            simpa using hlen
          omega
        obtain ⟨st', hst', hidx', hobj', hcls'⟩ := ih st₁ hInv₁ hlen₁
        refine ⟨st', ?_, hidx', hobj', by rw [hcls', hfacts.2]⟩
        show flush_loop (n + 1) st = some st'
        simp only [flush_loop, hidx, hfree]
        exact hst'

/-- **C10 counterexample**: the teardown order asserted by the claim —
cross-context hooks detached *before* the function-reference cache is
cleared, and the final flush done through `release` with
`nativeInitiated = true` (no finalizer, i.e. `free_object` with
`p_free = false`) — is not a subsequence of the order
`Environment::~Environment` actually performs: the destructor clears
`function_bank_`/`function_refs_` first and flushes with
`free_object(..., true)`, invoking the class finalizer. -/
theorem c10_teardown_order_counterexample :
    ¬ c10_claimed_teardown_order.Sublist environment_destructor_trace := by
  decide

/-- **C10 (amended)**: the destructor teardown steps occur in the order:
function-reference cache cleared, cross-context hooks detached, module
cache dropped, per-instance symbol table dropped, bridge unregistered from
the `EnvironmentStore` registry, every remaining bound object flushed
through `free_object(..., p_free = true)` — the spec's `release` with
`nativeInitiated = false`, so the class finalizer runs for each flushed
object — and finally the execution context disposed. The flush comes only
after the registry entry is gone, and it leaves the binding table empty. -/
theorem c10_teardown_order_amended :
    c10_amended_teardown_order.Sublist environment_destructor_trace ∧
    List.indexOf TeardownStep.unregisterInstanceRegistry environment_destructor_trace <
      List.indexOf (TeardownStep.flushBoundObjects true) environment_destructor_trace ∧
    (∀ st : BindingState, Inv st →
      ∃ st', destructor_flush st = some st' ∧
        st'.objects_index = [] ∧ st'.objects = []) := by
  refine ⟨by decide, by decide, ?_⟩
  intro st hInv
  obtain ⟨st', h1, h2, h3, _⟩ := flush_loop_empties st.objects_index.length st hInv
    (Nat.le_refl _)
  exact ⟨st', h1, h2, h3⟩

/-- Concrete C10 witness: flushing `sampleBindingState` empties the binding
table. -/
theorem c10_teardown_order_amended_witness :
    c10_amended_teardown_order.Sublist environment_destructor_trace ∧
    (destructor_flush sampleBindingState).isSome ∧
    (destructor_flush sampleBindingState).map (fun s => s.objects_index) = some [] ∧
    (destructor_flush sampleBindingState).map (fun s => s.objects) = some [] := by
  obtain ⟨st', h1, h2, h3⟩ :=
    c10_teardown_order_amended.2.2 sampleBindingState (by decide)
  refine ⟨c10_teardown_order_amended.1, ?_, ?_, ?_⟩
  · rw [h1]
    rfl
  · rw [h1]
    simp [h2]
  · rw [h1]
    simp [h3]

/-! ## Theorems: module cache and resolution -/

theorem alook_bump_exec (counts : List (String × Nat)) (path : String) :
    alook (bump_exec counts path) path = some ((alook counts path).getD 0 + 1) := by
  cases h : alook counts path with
  | none => simp [bump_exec, h]
  | some n => simp [bump_exec, h, alook_aupdate]

/-- **C5**: loading a resolved identity that is already cached and loaded
(with no reload request pending) returns the cached record and performs no
side effect at all — the module body is not executed again (the execution
counters, and the whole environment, are unchanged). -/
theorem c5_cached_load_returns_without_reexecution
    (env : ModuleEnv) (parent_id module_id : String) (m : JavaScriptModule)
    (hc : alook env.cache module_id = some m)
    (hl : m.loaded = true) (hr : m.reload_requested = false) :
    load_module env parent_id module_id = (some m, env) ∧
    (load_module env parent_id module_id).2.exec_count = env.exec_count := by
  have hml : m.is_loaded = true := by
    simp [JavaScriptModule.is_loaded, hl, hr]
  have h : load_module env parent_id module_id = (some m, env) := by
    simp [load_module, hc, hml]
  exact ⟨h, by rw [h]⟩

/-- Concrete C5 witness: the loaded module `a.js` of
`sampleLoadedModuleEnv` is returned as cached, with the environment (and
its execution counter) untouched. -/
theorem c5_cached_load_returns_without_reexecution_witness :
    load_module sampleLoadedModuleEnv "" "a.js" =
      (some { id := "a.js", path := "a.js", loaded := true, reload_requested := false
              exports := 0, children := 1 }, sampleLoadedModuleEnv) ∧
    (load_module sampleLoadedModuleEnv "" "a.js").2.exec_count =
      sampleLoadedModuleEnv.exec_count :=
  c5_cached_load_returns_without_reexecution sampleLoadedModuleEnv "" "a.js"
    { id := "a.js", path := "a.js", loaded := true, reload_requested := false
      exports := 0, children := 1 } (by decide) (by decide) (by decide)

/-- **C6**: after a reload request on a loaded cached module, the next load
re-resolves and re-executes the module body exactly once (its execution
count rises by one), clears the reload flag, and updates the record in
place: identity, path and the children-array reference are unchanged, only
the exports value is replaced (with the freshly read-back exports). -/
theorem c6_reload_reexecutes_once_in_place
    (env : ModuleEnv) (parent_id id : String) (m : JavaScriptModule)
    (hc : alook env.cache id = some m)
    (hl : m.loaded = true) (hr : m.reload_requested = true)
    (hnl : env.loaders.contains id = false)
    (hrel : (str_starts_with id "./" || str_starts_with id "../") = false)
    (hres : find_module_resolver env id = some id)
    (hid : m.id = id) (hpath : m.path = id)
    (hexec : env.exec_fail.contains id = false) :
    ∃ m', load_module env parent_id id =
        (some m',
         { env with
            cache := aupdate (aupdate env.cache id
                (fun _ => { m with reload_requested := false })) id (fun _ => m')
            next_ref := env.next_ref + 1
            exec_count := bump_exec env.exec_count id }) ∧
      m' = { m with reload_requested := false, exports := env.next_ref } ∧
      m'.id = m.id ∧ m'.path = m.path ∧ m'.children = m.children ∧
      m'.loaded = m.loaded ∧ m'.reload_requested = false ∧
      m'.exports = env.next_ref ∧
      alook (load_module env parent_id id).2.exec_count id =
        some ((alook env.exec_count id).getD 0 + 1) := by
  have hml : m.is_loaded = false := by
    simp [JavaScriptModule.is_loaded, hl, hr]
  have hnorm : normalize_module_id parent_id id = some id := by
    simp [normalize_module_id, hrel]
  have hcomp : load_module env parent_id id =
      (some { m with reload_requested := false, exports := env.next_ref },
       { env with
          cache := aupdate (aupdate env.cache id
              (fun _ => { m with reload_requested := false })) id
            (fun _ => { m with reload_requested := false, exports := env.next_ref })
          next_ref := env.next_ref + 1
          exec_count := bump_exec env.exec_count id }) := by
    simp only [load_module, hc, hml, Bool.false_eq_true, if_false]
    simp only [load_module_slow, hnl, Bool.false_eq_true, if_false, hnorm, hres, hc, hml]
    rw [if_neg (by rw [hid, hpath]; simp)]
    have hexec' : id ∉ env.exec_fail := by simpa using hexec
    simp [resolver_load, hexec']
  refine ⟨{ m with reload_requested := false, exports := env.next_ref },
    hcomp, rfl, rfl, rfl, rfl, rfl, rfl, rfl, ?_⟩
  rw [hcomp]
  exact alook_bump_exec env.exec_count id

/-- Concrete C6 witness on `sampleModuleEnv` (module `a.js` cached, loaded,
reload requested): the reload executes the body a second time and replaces
only the exports. -/
theorem c6_reload_reexecutes_once_in_place_witness :
    (load_module sampleModuleEnv "" "a.js").1 =
      some { id := "a.js", path := "a.js", loaded := true, reload_requested := false
             exports := 2, children := 1 } ∧
    alook (load_module sampleModuleEnv "" "a.js").2.exec_count "a.js" = some 2 := by
  obtain ⟨m', hcomp, hm', _, _, _, _, _, _, hcount⟩ :=
    c6_reload_reexecutes_once_in_place sampleModuleEnv "" "a.js"
      { id := "a.js", path := "a.js", loaded := true, reload_requested := true
        exports := 0, children := 1 }
      (by decide) (by decide) (by decide) (by decide) (by decide) (by decide)
      (by decide) (by decide) (by decide)
  constructor
  · rw [hcomp, hm']
    rfl
  · exact hcount

/-- **C7**: a module identifier beginning with `./` or `../` is combined
with the requesting module's directory and normalized before being handed
to the resolvers, while any other identifier is handed on unchanged;
requiring `./c` from module `a/b` resolves against `a/c`, and requiring
`../c` resolves against `c` — the parent of `a`'s directory joined with
`c`. -/
theorem c7_relative_identifier_normalization :
    (∀ parent_id module_id : String,
      (str_starts_with module_id "./" || str_starts_with module_id "../") = true →
      normalize_module_id parent_id module_id =
        (extract (combine (dirname parent_id) module_id)).bind
          (fun n => if n = "" then none else some n)) ∧
    (∀ parent_id module_id : String,
      (str_starts_with module_id "./" || str_starts_with module_id "../") = false →
      normalize_module_id parent_id module_id = some module_id) ∧
    dirname "a/b" = "a" ∧
    combine (dirname "a/b") "./c" = "a/./c" ∧
    normalize_module_id "a/b" "./c" = some "a/c" ∧
    combine (dirname "a/b") "../c" = "a/../c" ∧
    normalize_module_id "a/b" "../c" = some "c" := by
  refine ⟨?_, ?_, by decide, by decide, by decide, by decide, by decide⟩
  · intro p mid h
    simp only [normalize_module_id, h, if_true]
    cases hx : extract (combine (dirname p) mid) <;> simp [hx]
  · intro p mid h
    simp [normalize_module_id, h]

/-- Concrete C7 witness: the relative identifier `./c` requested from `a/b`
goes through combine-with-dirname and normalization, while the non-relative
identifier `pkg` is handed on unchanged. -/
theorem c7_relative_identifier_normalization_witness :
    normalize_module_id "a/b" "./c" =
      (extract (combine (dirname "a/b") "./c")).bind
        (fun n => if n = "" then none else some n) ∧
    normalize_module_id "a/b" "pkg" = some "pkg" :=
  ⟨c7_relative_identifier_normalization.1 "a/b" "./c" (by decide),
   c7_relative_identifier_normalization.2.1 "a/b" "pkg" (by decide)⟩

/-- **C8**: the path resolver first tries the identifier as a direct file
(with the script extension appended if missing) and succeeds with that path
when the file exists; otherwise it looks for `package.json` at that path,
reads its `"main"` field, and succeeds with that entry path when it exists;
when neither check succeeds, resolution fails. A package directory with
`{"main":"index.js"}` and an existing `index.js` resolves to
`pkg/index.js`. -/
theorem c8_check_file_path_first_wins (fs : FileSys) (module_id : String) :
    (fs.files.contains (extends_with module_id ".js") = true →
      check_file_path fs module_id =
        some { source_filepath := extends_with module_id ".js", package_filepath := "" }) ∧
    (∀ main_field main_path,
      fs.files.contains (extends_with module_id ".js") = false →
      fs.files.contains (combine module_id "package.json") = true →
      alook fs.package_main (combine module_id "package.json") = some (some main_field) →
      extract (combine module_id (extends_with main_field ".js")) = some main_path →
      fs.files.contains main_path = true →
      check_file_path fs module_id =
        some { source_filepath := main_path
               package_filepath := combine module_id "package.json" }) ∧
    (fs.files.contains (extends_with module_id ".js") = false →
      fs.files.contains (combine module_id "package.json") = false →
      check_file_path fs module_id = none) ∧
    check_file_path
      { files := ["pkg/package.json", "pkg/index.js"]
        package_main := [("pkg/package.json", some "index.js")] } "pkg" =
      some { source_filepath := "pkg/index.js", package_filepath := "pkg/package.json" } := by
  refine ⟨?_, ?_, ?_, by decide⟩
  · intro h
    have h' : extends_with module_id ".js" ∈ fs.files := by simpa using h
    simp [check_file_path, h']
  · intro mf mp h1 h2 h3 h4 h5
    have h1' : extends_with module_id ".js" ∉ fs.files := by simpa using h1
    have h2' : combine module_id "package.json" ∈ fs.files := by simpa using h2
    have h5' : mp ∈ fs.files := by simpa using h5
    simp [check_file_path, h1', h2', h3, h4, h5']
  · intro h1 h2
    have h1' : extends_with module_id ".js" ∉ fs.files := by simpa using h1
    have h2' : combine module_id "package.json" ∉ fs.files := by simpa using h2
    simp [check_file_path, h1', h2']

/-- Concrete C8 witness: a direct file hit, and the package fallback. -/
theorem c8_check_file_path_first_wins_witness :
    check_file_path { files := ["a.js"], package_main := [] } "a" =
      some { source_filepath := "a.js", package_filepath := "" } ∧
    check_file_path
      { files := ["pkg/package.json", "pkg/index.js"]
        package_main := [("pkg/package.json", some "index.js")] } "pkg" =
      some { source_filepath := "pkg/index.js", package_filepath := "pkg/package.json" } ∧
    check_file_path { files := [], package_main := [] } "a" = none := by
  refine ⟨?_, ?_, ?_⟩
  · exact (c8_check_file_path_first_wins { files := ["a.js"], package_main := [] } "a").1
      (by decide)
  · exact (c8_check_file_path_first_wins
      { files := ["pkg/package.json", "pkg/index.js"]
        package_main := [("pkg/package.json", some "index.js")] } "pkg").2.1
      "index.js" "pkg/index.js" (by decide) (by decide) (by decide) (by decide) (by decide)
  · exact (c8_check_file_path_first_wins { files := [], package_main := [] } "a").2.2.1
      (by decide) (by decide)

/-! ## Theorems: module source execution -/

/-- **C9**: a loaded module source is wrapped by `read_all_bytes` as an
anonymous function taking `(exports, require, module, __filename,
__dirname)`; on a successful load, `load_from_source` applies the
elevator's script-heap effect exactly once (the resulting heap is one
application of the arbitrary `effect` to the pre-call heap), reads
`module.exports` back after the invocation, stores that post-invocation
value — not the pre-allocated exports object — and the overwrite
diagnostic fires exactly when the read-back value differs from the
pre-allocated exports. -/
theorem c9_load_from_source_execution_contract
    (effect : JsHeap → JsHeap) (module_obj exports₀ : Nat) (asset_path : String)
    (heap : JsHeap) (updated : JsVal)
    (hread : hget (effect (hset (hset heap module_obj "filename" (JsVal.str asset_path))
        module_obj "path" (JsVal.str (dirname asset_path)))) module_obj "exports" =
      some updated) :
    (∀ source : String, read_all_bytes source =
      "(function(exports,require,module,__filename,__dirname)\x7b" ++ source ++ "\n\x7d)") ∧
    load_from_source true true effect module_obj exports₀ asset_path heap =
      (some { module_exports := updated
              exports_overwritten := decide (updated ≠ JsVal.ref exports₀) },
       effect (hset (hset heap module_obj "filename" (JsVal.str asset_path))
         module_obj "path" (JsVal.str (dirname asset_path)))) ∧
    ((load_from_source true true effect module_obj exports₀ asset_path heap).1.map
        (fun r => r.exports_overwritten) = some true ↔ updated ≠ JsVal.ref exports₀) := by
  refine ⟨fun _ => rfl, ?_, ?_⟩
  · simp [load_from_source, hread]
  · simp [load_from_source, hread]

/-- Concrete C9 witness: a module body that replaces `module.exports`
(identity 42) while the pre-allocated exports object is identity 5; the
stored exports is the post-invocation value and the diagnostic fires. -/
theorem c9_load_from_source_execution_contract_witness :
    load_from_source true true
      (fun h => hset h 1 "exports" (JsVal.ref 42)) 1 5 "m.js" [] =
      (some { module_exports := JsVal.ref 42, exports_overwritten := true },
       hset (hset (hset [] 1 "filename" (JsVal.str "m.js")) 1 "path" (JsVal.str ""))
         1 "exports" (JsVal.ref 42)) ∧
    read_all_bytes "x" =
      "(function(exports,require,module,__filename,__dirname)\x7bx\n\x7d)" := by
  have h := c9_load_from_source_execution_contract
    (fun h => hset h 1 "exports" (JsVal.ref 42)) 1 5 "m.js" [] (JsVal.ref 42) (by decide)
  constructor
  · rw [h.2.1]
    rfl
  · rw [h.1 "x"]
    rfl

end GodotJS
